import Mathlib

/-!
Verification of the zircon chunk store's core protocol claims.

The repository ships the `apis` interface definitions, the client control
test suite, and the twirp RPC proxy layer for the metadata cache. The
chunkserver storage engine, the metadata cache, and the client write
coordinator themselves are not part of the given sources, so those three
components are modelled from the specification's own operation contracts
(spec sections 4.1, 4.2, 4.3 and the literal scenarios of section 8);
every such definition carries a doc comment starting with
"Modelled from the spec:". The RPC proxy layer is embedded directly from
the source file (package rpc, metadata cache proxies). Go errors are
reduced to their message strings (`Option String`, `none` meaning nil);
a Go nil-pointer dereference (panic) is modelled by an `Option`-valued
function returning `none`.
-/

namespace Zircon

/-- 8 MiB, the maximum size of a chunk (source: lib/apis/chunkserver.go). -/
def MaxChunkSize : Nat := 8 * 1024 * 1024

/-- Sentinel version meaning "any version is valid" (source: lib/apis/chunkserver.go). -/
def AnyVersion : Nat := 0

/-! ## Client-observable chunk semantics

Modelled from the spec: the client write coordinator (spec section 4.3) is not
in the given sources; its caller-visible behaviour is pinned down by the
operation contracts of section 4.3, the error taxonomy of section 7, and the
literal scenarios of section 8 (a)/(b), which the test file
lib/client/control/client_test.go asserts verbatim. Versions as observed by
callers start at 0 for a freshly created chunk (scenario (a): a read right
after New returns version 0) and advance by exactly one per successful write.
Chunk contents are a byte function; a deleted or never-created chunk is `none`.
-/

/-- Caller-visible state of one chunk: its full 8 MiB content (as a byte
function, trailing bytes zero) and its current version. -/
structure ChunkState where
  data : Nat → Nat
  version : Nat

/-- Error kinds surfaced by the client coordinator (spec section 7).
`staleVersion` carries the current observed version, as required by the
propagation policy for the MostRecentVersion CAS. -/
inductive ClientErr where
  | notFound : ClientErr
  | outOfBounds : ClientErr
  | staleVersion : Nat → ClientErr
deriving DecidableEq, Repr

/-- The all-zero chunk content. -/
def zeroData : Nat → Nat := fun _ => 0

/-- Splice `d` into content `c` at byte offset `off`. -/
def writeBytes (c : Nat → Nat) (off : Nat) (d : List Nat) : Nat → Nat :=
  fun i => if off ≤ i ∧ i < off + d.length then d.getD (i - off) 0 else c i

/-- Read `len` bytes starting at `off` from content `c`. -/
def readBytes (c : Nat → Nat) (off len : Nat) : List Nat :=
  (List.range len).map (fun i => c (off + i))

/-- Modelled from the spec: the chunk state published by a successful New()
as observed by callers — zero-filled content at observable version 0
(spec section 8, scenario (a)). -/
def clientNewChunk : ChunkState := { data := zeroData, version := 0 }

/-- Modelled from the spec: client Read(chunk, offset, length) (spec
section 4.3). Fails with NotFound on a deleted/absent chunk, with
OutOfBounds when offset + length exceeds MaxChunkSize, and otherwise
returns exactly `length` bytes together with the chunk's current version. -/
def clientRead (s : Option ChunkState) (off len : Nat) :
    Except ClientErr (List Nat × Nat) :=
  match s with
  | none => .error .notFound
  | some st =>
    if off + len > MaxChunkSize then .error .outOfBounds
    else .ok (readBytes st.data off len, st.version)

/-- Modelled from the spec: client Write(chunk, offset, data, previousVersion)
(spec section 4.3). Step 1 checks the version CAS precondition first: unless
`previousVersion` is AnyVersion it must equal the current version, else a
StaleVersionError carrying the current version is returned together with that
version (the Go signature returns `(version, error)`; tests show the stale
failure reports the competing writer's version and an out-of-bounds failure
reports version 0). The size guard arises at step 2 when the chunkserver
stages the write (spec section 4.1, StartWrite). A successful write returns
the incremented version. The triple returned is
(reported version, error, resulting chunk state). -/
def clientWrite (s : Option ChunkState) (off : Nat) (d : List Nat)
    (prev : Nat) : Nat × Option ClientErr × Option ChunkState :=
  match s with
  | none => (0, some .notFound, none)
  | some st =>
    if prev ≠ AnyVersion ∧ prev ≠ st.version then
      (st.version, some (.staleVersion st.version), some st)
    else if off + d.length > MaxChunkSize then
      (0, some .outOfBounds, some st)
    else
      (st.version + 1, none,
        some { data := writeBytes st.data off d, version := st.version + 1 })

/-- Modelled from the spec: client Delete(chunk, version) (spec section 4.3)
requires the supplied version to equal the entry's LastConsumedVersion (equal
to the observable chunk version once a write has fully completed); a stale
version fails without mutation, a current version tombstones the chunk. -/
def clientDelete (s : Option ChunkState) (ver : Nat) :
    Option ClientErr × Option ChunkState :=
  match s with
  | none => (some .notFound, none)
  | some st =>
    if ver ≠ st.version then (some (.staleVersion st.version), some st)
    else (none, none)

/-! ## Metadata cache

Modelled from the spec: the metadata cache implementation (spec section 4.2)
is not in the given sources; only its consumers (the rpc proxy layer and the
client tests) are. Entries map chunk numbers to `MetadataEntry` records;
UpdateEntry is a compare-and-swap that only the owning cache may perform and
that enforces the section 4.2 invariants on every successful update.
-/

/-- The per-chunk metadata record (spec section 3): the most recent committed
version, the last version made visible to readers, and the replica set
(server ids, as carried on the wire by the rpc layer). -/
structure MetadataEntry where
  mostRecentVersion : Nat
  lastConsumedVersion : Nat
  replicas : List Nat
deriving DecidableEq, Repr

/-- Error kinds of the metadata cache (spec sections 4.2 and 7). -/
inductive CacheErr where
  | notOwner : CacheErr
  | notFound : CacheErr
  | staleEntry : CacheErr
  | badNext : CacheErr
deriving DecidableEq, Repr

/-- State of one metadata cache: its entry table, which chunks it owns, and
the owner name it reports for chunks it does not own. -/
structure CacheState where
  entries : Nat → Option MetadataEntry
  ownsChunk : Nat → Bool
  ownerOf : Nat → String

/-- The section 4.2 invariants checked on every successful UpdateEntry:
MostRecentVersion and LastConsumedVersion may not decrease, and the new
entry must satisfy LastConsumedVersion ≤ MostRecentVersion. -/
def validNext (prev next : MetadataEntry) : Bool :=
  decide (prev.mostRecentVersion ≤ next.mostRecentVersion) &&
  decide (prev.lastConsumedVersion ≤ next.lastConsumedVersion) &&
  decide (next.lastConsumedVersion ≤ next.mostRecentVersion)

/-- Modelled from the spec: MetadataCache.UpdateEntry(chunk, prev, next)
(spec section 4.2). Outcomes: ownership redirection `(actualOwner,
NotOwnerError)`; not-found; CAS mismatch `("", StaleEntryError)` with no
state change; invariant violation rejected; success `("", nil)` atomically
publishing `next`. Returns (owner, error, resulting cache state). -/
def updateEntry (s : CacheState) (c : Nat) (prev next : MetadataEntry) :
    String × Option CacheErr × CacheState :=
  if s.ownsChunk c = false then (s.ownerOf c, some .notOwner, s)
  else if s.entries c = none then ("", some .notFound, s)
  else if s.entries c ≠ some prev then ("", some .staleEntry, s)
  else if validNext prev next = false then ("", some .badNext, s)
  else ("", none,
    { s with entries := fun c2 => if c2 = c then some next else s.entries c2 })

/-- Whether a whole sequence of UpdateEntry operations against chunk `c`
succeeds, each applied to the state left by the previous one. -/
def runOk : CacheState → Nat → List (MetadataEntry × MetadataEntry) → Bool
  | _, _, [] => true
  | s, c, (p, n) :: rest =>
    match updateEntry s c p n with
    | (_, none, s2) => runOk s2 c rest
    | (_, some _, _) => false

/-- The entry observed for chunk `c` after each operation of the sequence. -/
def entriesAfter : CacheState → Nat → List (MetadataEntry × MetadataEntry) →
    List (Option MetadataEntry)
  | _, _, [] => []
  | s, c, (p, n) :: rest =>
    (updateEntry s c p n).2.2.entries c
      :: entriesAfter (updateEntry s c p n).2.2 c rest

/-- MostRecentVersion of a possibly-absent entry (0 when absent). -/
def dMRV : Option MetadataEntry → Nat
  | none => 0
  | some e => e.mostRecentVersion

/-- LastConsumedVersion of a possibly-absent entry (0 when absent). -/
def dLCV : Option MetadataEntry → Nat
  | none => 0
  | some e => e.lastConsumedVersion

/-- One Add call issued by the client's New() to a replica. -/
structure AddCall where
  replica : Nat
  initialData : Nat → Nat
  initialVersion : Nat

/-- Modelled from the spec: the tail of client New() (spec section 4.3; the
client implementation is not in the given sources) once NewEntry has
allocated chunk `c` with the fresh entry {0, 0, []}: it issues
Add(c, zero-filled data, version 1) on every chosen replica and then
publishes the entry {MostRecentVersion = 1, LastConsumedVersion = 1,
replicas} through the UpdateEntry CAS, before New returns. The result pairs
the Add calls issued with the UpdateEntry outcome. -/
def clientNewProtocol (s : CacheState) (c : Nat) (rs : List Nat) :
    List AddCall × (String × Option CacheErr × CacheState) :=
  (rs.map (fun r => { replica := r, initialData := zeroData, initialVersion := 1 }),
   updateEntry s c
     { mostRecentVersion := 0, lastConsumedVersion := 0, replicas := [] }
     { mostRecentVersion := 1, lastConsumedVersion := 1, replicas := rs })

/-! ## Chunkserver replica state -/

/-- Per-chunk state on one chunkserver (spec section 3): the committed
versions with their payloads and the version currently visible to readers.
The payload type is abstract; UpdateLatestVersion never inspects it. -/
structure ReplicaState (α : Type) where
  committed : List (Nat × α)
  latestVisible : Nat

/-- Modelled from the spec: ChunkserverSingle.UpdateLatestVersion (interface
declared in lib/apis/chunkserver.go; the storage engine implementing it is
not in the given sources; behaviour per spec section 4.1): requires
newVersion ≥ oldVersion; if the currently visible version differs from
oldVersion it fails without mutation; otherwise it sets the visible version
to newVersion and deletes every committed version strictly less than
newVersion. `none` is failure. -/
def updateLatestVersion {α : Type} (s : ReplicaState α) (oldV newV : Nat) :
    Option (ReplicaState α) :=
  if newV < oldV then none
  else if s.latestVisible ≠ oldV then none
  else some { committed := s.committed.filter (fun p => decide (newV ≤ p.1)),
              latestVisible := newV }

/-- UpdateLatestVersion as the chunkserver runs it: on failure the replica
state is left unchanged. -/
def runULV {α : Type} (s : ReplicaState α) (oldV newV : Nat) : ReplicaState α :=
  (updateLatestVersion s oldV newV).getD s

/-! ## Twirp RPC proxy layer

This part is embedded from the given source (package rpc, file with the
metadata cache proxies, src/unnamed/part_000). Go errors are reduced to
their message strings: `Option String` with `none` for nil. Each proxy is a
function of the result of the underlying call it wraps. A Go nil-pointer
dereference (panic) is modelled by returning `none` from an
`Option`-valued function.
-/

/-- Wire form of a metadata entry (message MetadataEntry; uint64 fields and
the ServerIDs array). -/
structure TwirpMetadataEntry where
  mostRecentVersion : Nat
  lastConsumedVersion : Nat
  serverIDs : List Nat
deriving DecidableEq, Repr

/-- Wire result of MetadataCache.UpdateEntry: owner and error text, both
defaulting to the empty string. -/
structure TwirpUpdateEntryResult where
  owner : String
  ownerErr : String
deriving DecidableEq, Repr

/-- Wire result of MetadataCache.DeleteEntry. -/
structure TwirpDeleteEntryResult where
  owner : String
  ownerErr : String
deriving DecidableEq, Repr

/-- Wire result of MetadataCache.ReadEntry: an optional entry message plus
owner and error text. -/
structure TwirpReadEntryResult where
  entry : Option TwirpMetadataEntry
  owner : String
  ownerErr : String
deriving DecidableEq, Repr

/-- The zero value of apis.MetadataEntry, returned by the client proxy on
error paths. -/
def zeroEntry : MetadataEntry :=
  { mostRecentVersion := 0, lastConsumedVersion := 0, replicas := [] }

/-- Encoding of an apis.MetadataEntry into its wire message (the uint64 and
server-id conversions are identities in this embedding). -/
def entryToTwirp (e : MetadataEntry) : TwirpMetadataEntry :=
  { mostRecentVersion := e.mostRecentVersion,
    lastConsumedVersion := e.lastConsumedVersion,
    serverIDs := e.replicas }

/-- Decoding of a wire entry message back into an apis.MetadataEntry. -/
def twirpToEntry (e : TwirpMetadataEntry) : MetadataEntry :=
  { mostRecentVersion := e.mostRecentVersion,
    lastConsumedVersion := e.lastConsumedVersion,
    replicas := e.serverIDs }

/-- Server-side adapter for UpdateEntry (proxyMetadataCacheAsTwirp,
src/unnamed/part_000 lines 59-78): `r` is the (owner, err) pair returned by
the wrapped MetadataCache. A non-empty owner is turned into a reply message
carrying the owner and err.Error(); that call panics when err is nil, hence
the outer `Option`. An empty owner is passed through as a reply whose owner
field is empty, together with the error itself. -/
def proxyMetadataCacheAsTwirp.UpdateEntry (r : String × Option String) :
    Option (Option TwirpUpdateEntryResult × Option String) :=
  if r.1 ≠ "" then
    match r.2 with
    | some msg => some (some { owner := r.1, ownerErr := msg }, none)
    | none => none
  else
    some (some { owner := r.1, ownerErr := "" }, r.2)

/-- Server-side adapter for DeleteEntry (src/unnamed/part_000 lines 80-95),
identical in shape to the UpdateEntry adapter. -/
def proxyMetadataCacheAsTwirp.DeleteEntry (r : String × Option String) :
    Option (Option TwirpDeleteEntryResult × Option String) :=
  if r.1 ≠ "" then
    match r.2 with
    | some msg => some (some { owner := r.1, ownerErr := msg }, none)
    | none => none
  else
    some (some { owner := r.1, ownerErr := "" }, r.2)

/-- Server-side adapter for ReadEntry (src/unnamed/part_000 lines 39-57):
`r` is the (entry, owner, err) triple returned by the wrapped MetadataCache.
On error with no owner the error itself is returned; on error with an owner
the reply carries owner and error text; on success the reply carries the
encoded entry (its owner field left at the empty default). -/
def proxyMetadataCacheAsTwirp.ReadEntry
    (r : MetadataEntry × String × Option String) :
    Option TwirpReadEntryResult × Option String :=
  match r.2.2 with
  | some msg =>
    if r.2.1 = "" then (none, some msg)
    else (some { entry := none, owner := r.2.1, ownerErr := msg }, none)
  | none =>
    (some { entry := some (entryToTwirp r.1), owner := "", ownerErr := "" },
     none)

/-- Behaviour of the twirp request/response transport on a handler reply:
a non-nil handler error reaches the client stub as that error with a nil
result message; otherwise the message arrives with a nil error. -/
def twirpTransport {μ : Type} (h : Option μ × Option String) :
    Option μ × Option String :=
  match h.2 with
  | some e => (none, some e)
  | none => (h.1, none)

/-- Client-side proxy for UpdateEntry (proxyTwirpAsMetadataCache,
src/unnamed/part_000 lines 126-144): `r` is the (result, err) pair produced
by the generated twirp stub. The code reads result.Owner before checking
err, so a nil result (which is exactly what the stub yields alongside a
non-nil error) is dereferenced: modelled by `none` (panic). Otherwise a
non-empty owner is reconstructed as (owner, errors.New(ownerErr)) and an
empty owner as ("", err). -/
def proxyTwirpAsMetadataCache.UpdateEntry
    (r : Option TwirpUpdateEntryResult × Option String) :
    Option (String × Option String) :=
  match r.1 with
  | none => none
  | some m =>
    if m.owner ≠ "" then some (m.owner, some m.ownerErr) else some ("", r.2)

/-- Client-side proxy for DeleteEntry (src/unnamed/part_000 lines 146-159),
identical in shape to the UpdateEntry proxy, including the unguarded
result.Owner read. -/
def proxyTwirpAsMetadataCache.DeleteEntry
    (r : Option TwirpDeleteEntryResult × Option String) :
    Option (String × Option String) :=
  match r.1 with
  | none => none
  | some m =>
    if m.owner ≠ "" then some (m.owner, some m.ownerErr) else some ("", r.2)

/-- Client-side proxy for ReadEntry (src/unnamed/part_000 lines 109-124):
unlike the other two, it returns the transport error (with the zero entry
and no owner) before touching the result; then a non-empty owner is
reconstructed as a redirection, and otherwise the entry message is decoded
(a nil entry message would be a panic, modelled by `none`). -/
def proxyTwirpAsMetadataCache.ReadEntry
    (r : Option TwirpReadEntryResult × Option String) :
    Option (MetadataEntry × String × Option String) :=
  match r.2 with
  | some e => some (zeroEntry, "", some e)
  | none =>
    match r.1 with
    | none => none
    | some m =>
      if m.owner ≠ "" then some (zeroEntry, m.owner, some m.ownerErr)
      else
        match m.entry with
        | none => none
        | some te => some (twirpToEntry te, "", none)

/-- Composition of server adapter, transport, and client proxy for
UpdateEntry, as a function of the wrapped implementation's result. -/
def roundTripUpdateEntry (r : String × Option String) :
    Option (String × Option String) :=
  match proxyMetadataCacheAsTwirp.UpdateEntry r with
  | none => none
  | some h => proxyTwirpAsMetadataCache.UpdateEntry (twirpTransport h)

/-- Composition of server adapter, transport, and client proxy for
DeleteEntry. -/
def roundTripDeleteEntry (r : String × Option String) :
    Option (String × Option String) :=
  match proxyMetadataCacheAsTwirp.DeleteEntry r with
  | none => none
  | some h => proxyTwirpAsMetadataCache.DeleteEntry (twirpTransport h)

/-- Composition of server adapter, transport, and client proxy for
ReadEntry. -/
def roundTripReadEntry (r : MetadataEntry × String × Option String) :
    Option (MetadataEntry × String × Option String) :=
  proxyTwirpAsMetadataCache.ReadEntry
    (twirpTransport (proxyMetadataCacheAsTwirp.ReadEntry r))

/-! ## Concrete sample states used by witnesses -/

/-- A cache owning chunk 1, whose entry for chunk 1 is freshly allocated. -/
def sampleCache : CacheState :=
  { entries := fun c =>
      if c = 1 then
        some { mostRecentVersion := 0, lastConsumedVersion := 0, replicas := [] }
      else none,
    ownsChunk := fun _ => true,
    ownerOf := fun _ => "" }

/-- Two successive successful CAS updates of chunk 1's entry. -/
def sampleOps : List (MetadataEntry × MetadataEntry) :=
  [({ mostRecentVersion := 0, lastConsumedVersion := 0, replicas := [] },
    { mostRecentVersion := 1, lastConsumedVersion := 1, replicas := [5] }),
   ({ mostRecentVersion := 1, lastConsumedVersion := 1, replicas := [5] },
    { mostRecentVersion := 2, lastConsumedVersion := 1, replicas := [5] })]

/-- A replica holding committed versions 1, 2, 3 with version 1 visible. -/
def sampleReplica : ReplicaState Nat :=
  { committed := [(1, 11), (2, 22), (3, 33)], latestVisible := 1 }

/-! ## Claim theorems: client-observable semantics -/

/-- Helper: the stale branch of `clientWrite`, shared by several claim
proofs. -/
theorem clientWrite_stale_aux (st : ChunkState) (off : Nat) (d : List Nat)
    (prev : Nat) (h1 : prev ≠ AnyVersion) (h2 : prev ≠ st.version) :
    clientWrite (some st) off d prev
      = (st.version, some (.staleVersion st.version), some st) := by
  simp only [clientWrite]
  rw [if_pos ⟨h1, h2⟩]

/-- C2: a client Write whose previousVersion is neither AnyVersion nor the
current version fails with a StaleVersionError carrying the current version
(the one the competing writer produced), reports that version, and leaves the
chunk's committed content and version unchanged. -/
theorem clientWrite_stale (st : ChunkState) (off : Nat) (d : List Nat)
    (prev : Nat) (h1 : prev ≠ AnyVersion) (h2 : prev ≠ st.version) :
    clientWrite (some st) off d prev
      = (st.version, some (.staleVersion st.version), some st) :=
  clientWrite_stale_aux st off d prev h1 h2

/-- C2 witness: at version 2, a write carrying previousVersion 1 fails as
stated. -/
theorem clientWrite_stale_witness :
    (1 ≠ AnyVersion ∧ 1 ≠ 2) ∧
    clientWrite (some { data := zeroData, version := 2 }) 0 [7] 1
      = (2, some (.staleVersion 2), some { data := zeroData, version := 2 }) :=
  ⟨by decide, clientWrite_stale { data := zeroData, version := 2 } 0 [7] 1
      (by decide) (by decide)⟩

/-- C7: immediately after a successful New() and before any write, reading
one byte at offset 0 succeeds and returns exactly the single zero byte with
version 0. -/
theorem clientRead_after_new :
    clientRead (some clientNewChunk) 0 1 = .ok ([0], 0) := by
  rfl

/-- C4 counterexample: an oversized write whose previousVersion is stale does
not report version 0 — the stale-version check of the write protocol (spec
section 4.3, step 1) precedes the size guard (step 2), so the reported
version is the current version 2. The claim's "returns an error with
version 0" is therefore false for this input, although the write does fail
and leave the chunk unchanged. -/
theorem clientWrite_oversized_stale_not_zero :
    2 + (List.replicate (MaxChunkSize - 1) 0).length > MaxChunkSize ∧
    (clientWrite (some { data := zeroData, version := 2 })
        2 (List.replicate (MaxChunkSize - 1) 0) 1).1 = 2 ∧
    (clientWrite (some { data := zeroData, version := 2 })
        2 (List.replicate (MaxChunkSize - 1) 0) 1).1 ≠ 0 := by
  refine ⟨?_, ?_, ?_⟩
  · rw [List.length_replicate]; norm_num [MaxChunkSize]
  · rw [clientWrite_stale_aux _ _ _ _ (by decide) (by decide)]
  · rw [clientWrite_stale_aux _ _ _ _ (by decide) (by decide)]; decide

/-- C4 (amended): every write with offset + len(data) > MaxChunkSize fails
and leaves the chunk completely unchanged, so any subsequent in-bounds read
returns the same bytes and version as before the failed write; when the
supplied previousVersion is AnyVersion or the current version the failure is
the OutOfBounds error with reported version 0 (a stale previousVersion
instead reports the current version, per C2); likewise any read with
offset + length > MaxChunkSize fails. -/
theorem clientWrite_oversized (st : ChunkState) (off : Nat) (d : List Nat)
    (prev : Nat) (hsz : off + d.length > MaxChunkSize) :
    ((clientWrite (some st) off d prev).2.1.isSome
        ∧ (clientWrite (some st) off d prev).2.2 = some st) ∧
    (prev = AnyVersion ∨ prev = st.version →
      clientWrite (some st) off d prev = (0, some .outOfBounds, some st)) ∧
    (∀ off2 len2,
      clientRead (clientWrite (some st) off d prev).2.2 off2 len2
        = clientRead (some st) off2 len2) ∧
    (∀ off2 len2, off2 + len2 > MaxChunkSize →
      clientRead (some st) off2 len2 = .error .outOfBounds) := by
  have hcases : clientWrite (some st) off d prev
        = (st.version, some (.staleVersion st.version), some st)
      ∨ clientWrite (some st) off d prev = (0, some .outOfBounds, some st) := by
    by_cases hstale : prev ≠ AnyVersion ∧ prev ≠ st.version
    · exact Or.inl (clientWrite_stale_aux st off d prev hstale.1 hstale.2)
    · refine Or.inr ?_
      simp only [clientWrite]
      rw [if_neg hstale, if_pos hsz]
  refine ⟨?_, ?_, ?_, ?_⟩
  · rcases hcases with h | h <;> rw [h] <;> exact ⟨rfl, rfl⟩
  · intro hprev
    have hstale : ¬(prev ≠ AnyVersion ∧ prev ≠ st.version) := by
      rcases hprev with h | h
      · intro hc; exact hc.1 h
      · intro hc; exact hc.2 h
    simp only [clientWrite]
    rw [if_neg hstale, if_pos hsz]
  · intro off2 len2
    rcases hcases with h | h <;> rw [h]
  · intro off2 len2 hb
    simp only [clientRead]
    rw [if_pos hb]

/-- C4 witness: the oversized write of scenario (b) — offset 2, data of
length MaxChunkSize − 1, previousVersion AnyVersion on a fresh chunk —
returns the OutOfBounds error with version 0 and the unchanged chunk. -/
theorem clientWrite_oversized_witness :
    2 + (List.replicate (MaxChunkSize - 1) 0).length > MaxChunkSize ∧
    clientWrite (some clientNewChunk) 2 (List.replicate (MaxChunkSize - 1) 0)
        AnyVersion
      = (0, some .outOfBounds, some clientNewChunk) := by
  have hsz : 2 + (List.replicate (MaxChunkSize - 1) 0).length > MaxChunkSize := by
    rw [List.length_replicate]; norm_num [MaxChunkSize]
  exact ⟨hsz, (clientWrite_oversized clientNewChunk 2 _ AnyVersion hsz).2.1
      (Or.inl rfl)⟩

/-- C5: client Delete succeeds exactly at the chunk's current (last consumed)
version: a stale version fails and leaves the chunk readable with unchanged
content and version, while deleting at the current version succeeds and makes
every subsequent read of the chunk fail with the NotFound error. -/
theorem clientDelete_semantics (st : ChunkState) (ver : Nat) :
    (ver ≠ st.version →
      clientDelete (some st) ver = (some (.staleVersion st.version), some st)
        ∧ ∀ off len, clientRead (clientDelete (some st) ver).2 off len
            = clientRead (some st) off len) ∧
    (clientDelete (some st) st.version = (none, none)
      ∧ ∀ off len, clientRead (clientDelete (some st) st.version).2 off len
          = .error .notFound) := by
  constructor
  · intro hne
    have h : clientDelete (some st) ver
        = (some (.staleVersion st.version), some st) := by
      simp only [clientDelete]
      rw [if_pos hne]
    exact ⟨h, fun off len => by rw [h]⟩
  · have h : clientDelete (some st) st.version = (none, none) := by
      simp only [clientDelete]
      rw [if_neg (by simp)]
    exact ⟨h, fun off len => by rw [h]; rfl⟩

/-- C5 witness: on a chunk at version 2, deleting at stale version 1 fails
with the chunk intact, and deleting at version 2 tombstones it so a
subsequent read is NotFound. -/
theorem clientDelete_semantics_witness :
    (1 ≠ 2) ∧
    clientDelete (some { data := zeroData, version := 2 }) 1
      = (some (.staleVersion 2), some { data := zeroData, version := 2 }) ∧
    clientRead (clientDelete (some { data := zeroData, version := 2 }) 2).2 0 1
      = .error .notFound :=
  ⟨by decide,
   ((clientDelete_semantics { data := zeroData, version := 2 } 1).1
      (by decide)).1,
   (clientDelete_semantics { data := zeroData, version := 2 } 1).2.2 0 1⟩

/-! ## Claim theorems: metadata cache invariants -/

/-- Helper: a successful UpdateEntry found the entry equal to `prev`, passed
the invariant checks, and published `next`. -/
theorem updateEntry_success (s : CacheState) (c : Nat) (p n : MetadataEntry)
    (h : (updateEntry s c p n).2.1 = none) :
    s.entries c = some p ∧ validNext p n = true ∧
      (updateEntry s c p n).2.2.entries c = some n := by
  simp only [updateEntry] at h ⊢
  by_cases h1 : s.ownsChunk c = false
  · rw [if_pos h1] at h
    exact absurd h (by simp)
  · rw [if_neg h1] at h ⊢
    by_cases h2 : s.entries c = none
    · rw [if_pos h2] at h
      exact absurd h (by simp)
    · rw [if_neg h2] at h ⊢
      by_cases h3 : s.entries c ≠ some p
      · rw [if_pos h3] at h
        exact absurd h (by simp)
      · rw [if_neg h3] at h ⊢
        by_cases h4 : validNext p n = false
        · rw [if_pos h4] at h
          exact absurd h (by simp)
        · rw [if_neg h4]
          refine ⟨not_not.mp h3, ?_, by simp⟩
          cases hv : validNext p n
          · exact absurd hv h4
          · rfl

/-- Helper: unpacking the three inequalities enforced by `validNext`. -/
theorem validNext_le {p n : MetadataEntry} (h : validNext p n = true) :
    p.mostRecentVersion ≤ n.mostRecentVersion ∧
    p.lastConsumedVersion ≤ n.lastConsumedVersion ∧
    n.lastConsumedVersion ≤ n.mostRecentVersion := by
  simp only [validNext, Bool.and_eq_true, decide_eq_true_eq] at h
  tauto

/-- Helper: along any all-successful UpdateEntry sequence the entry's
MostRecentVersion and LastConsumedVersion chains are non-decreasing and
every published entry satisfies LastConsumedVersion ≤ MostRecentVersion. -/
theorem runOk_chain (c : Nat) (ops : List (MetadataEntry × MetadataEntry))
    (s : CacheState) (h : runOk s c ops = true) :
    List.Chain (fun a b => dMRV a ≤ dMRV b) (s.entries c)
        (entriesAfter s c ops) ∧
    List.Chain (fun a b => dLCV a ≤ dLCV b) (s.entries c)
        (entriesAfter s c ops) ∧
    ∀ e ∈ entriesAfter s c ops, dLCV e ≤ dMRV e := by
  induction ops generalizing s with
  | nil =>
    exact ⟨List.Chain.nil, List.Chain.nil, by simp [entriesAfter]⟩
  | cons op rest ih =>
    obtain ⟨p, n⟩ := op
    rcases he : updateEntry s c p n with ⟨o, err, s2⟩
    cases err with
    | some e => simp [runOk, he] at h
    | none =>
      have hsucc : (updateEntry s c p n).2.1 = none := by rw [he]
      obtain ⟨hcur, hvn, hafter⟩ := updateEntry_success s c p n hsucc
      rw [he] at hafter
      obtain ⟨hm, hl, hlm⟩ := validNext_le hvn
      have hrest : runOk s2 c rest = true := by
        simpa [runOk, he] using h
      have hA : entriesAfter s c ((p, n) :: rest)
          = s2.entries c :: entriesAfter s2 c rest := by
        simp [entriesAfter, he]
      obtain ⟨ihA, ihB, ihC⟩ := ih s2 hrest
      refine ⟨?_, ?_, ?_⟩
      · rw [hA, hcur]
        refine List.Chain.cons ?_ ihA
        rw [hafter]
        simpa [dMRV] using hm
      · rw [hA, hcur]
        refine List.Chain.cons ?_ ihB
        rw [hafter]
        simpa [dLCV] using hl
      · intro e hmem
        rw [hA] at hmem
        rcases List.mem_cons.mp hmem with rfl | hmem2
        · rw [hafter]
          simpa [dMRV, dLCV] using hlm
        · exact ihC e hmem2

/-- Helper: a successful client write reports the incremented version. -/
theorem clientWrite_success_version (st : ChunkState) (off : Nat)
    (d : List Nat) (prev : Nat)
    (h : (clientWrite (some st) off d prev).2.1 = none) :
    (clientWrite (some st) off d prev).1 = st.version + 1 := by
  simp only [clientWrite] at h ⊢
  by_cases h1 : prev ≠ AnyVersion ∧ prev ≠ st.version
  · rw [if_pos h1] at h
    exact absurd h (by simp)
  · rw [if_neg h1] at h ⊢
    by_cases h2 : off + d.length > MaxChunkSize
    · rw [if_pos h2] at h
      exact absurd h (by simp)
    · rw [if_neg h2]

/-- Helper: a successful client read reports the chunk's current version. -/
theorem clientRead_ok_version (st : ChunkState) (off len : Nat)
    (bs : List Nat) (v : Nat)
    (h : clientRead (some st) off len = .ok (bs, v)) : v = st.version := by
  simp only [clientRead] at h
  by_cases h1 : off + len > MaxChunkSize
  · rw [if_pos h1] at h
    exact absurd h (by simp)
  · rw [if_neg h1] at h
    rw [Except.ok.injEq, Prod.mk.injEq] at h
    exact h.2.symm

/-- C1: over any sequence of successful metadata-cache UpdateEntry
operations on a chunk, the entry's MostRecentVersion chain is
non-decreasing, the LastConsumedVersion chain is non-decreasing, and after
every operation LastConsumedVersion ≤ MostRecentVersion; moreover every
successful client Write returns a version strictly greater than the version
any read of the pre-write state reported. -/
theorem metadata_versions_monotone (s : CacheState) (c : Nat)
    (ops : List (MetadataEntry × MetadataEntry)) (st : ChunkState)
    (h : runOk s c ops = true) :
    (List.Chain (fun a b => dMRV a ≤ dMRV b) (s.entries c)
        (entriesAfter s c ops)
      ∧ List.Chain (fun a b => dLCV a ≤ dLCV b) (s.entries c)
          (entriesAfter s c ops)
      ∧ ∀ e ∈ entriesAfter s c ops, dLCV e ≤ dMRV e) ∧
    (∀ off d prev offR lenR bs v,
      clientRead (some st) offR lenR = .ok (bs, v) →
      (clientWrite (some st) off d prev).2.1 = none →
      v < (clientWrite (some st) off d prev).1) := by
  refine ⟨runOk_chain c ops s h, ?_⟩
  intro off d prev offR lenR bs v hr hw
  rw [clientWrite_success_version st off d prev hw,
      clientRead_ok_version st offR lenR bs v hr]
  exact Nat.lt_succ_self _

/-- C1 witness: two successive successful CAS updates on chunk 1 of the
sample cache keep LastConsumedVersion ≤ MostRecentVersion throughout. -/
theorem metadata_versions_monotone_witness :
    runOk sampleCache 1 sampleOps = true ∧
    ∀ e ∈ entriesAfter sampleCache 1 sampleOps, dLCV e ≤ dMRV e :=
  ⟨rfl, (metadata_versions_monotone sampleCache 1 sampleOps clientNewChunk
      rfl).1.2.2⟩

/-! ## Claim theorems: chunkserver UpdateLatestVersion -/

/-- Helper: when every key of `l` is at most `n`, filtering for keys at
least `n` keeps exactly the entries whose key equals `n`. -/
theorem filter_length_eq_count {α : Type} (l : List (Nat × α)) (n : Nat)
    (h : ∀ p ∈ l, p.1 ≤ n) :
    (l.filter (fun p => decide (n ≤ p.1))).length
      = (l.map Prod.fst).count n := by
  induction l with
  | nil => rfl
  | cons a t ih =>
    have ha : a.1 ≤ n := h a (List.mem_cons_self a t)
    have ht : ∀ p ∈ t, p.1 ≤ n := fun p hp => h p (List.mem_cons_of_mem a hp)
    by_cases hn : n ≤ a.1
    · have heq : a.1 = n := Nat.le_antisymm ha hn
      simp [List.filter_cons, List.count_cons, hn, heq, ih ht]
    · have hne : a.1 ≠ n := fun hc => hn (hc ▸ Nat.le_refl n)
      simp [List.filter_cons, List.count_cons, hn, hne, ih ht]

/-- Helper: the success branch of UpdateLatestVersion. -/
theorem updateLatestVersion_eq_some {α : Type} (s : ReplicaState α)
    (oldV newV : Nat) (h1 : ¬ newV < oldV) (h2 : s.latestVisible = oldV) :
    updateLatestVersion s oldV newV
      = some { committed := s.committed.filter (fun p => decide (newV ≤ p.1)),
               latestVisible := newV } := by
  unfold updateLatestVersion
  rw [if_neg h1, if_neg (not_not_intro h2)]

/-- Helper: the mismatch branch of UpdateLatestVersion. -/
theorem updateLatestVersion_eq_none_of_ne {α : Type} (s : ReplicaState α)
    (oldV newV : Nat) (h1 : ¬ newV < oldV) (h2 : s.latestVisible ≠ oldV) :
    updateLatestVersion s oldV newV = none := by
  unfold updateLatestVersion
  rw [if_neg h1, if_pos h2]

/-- Helper: applying UpdateLatestVersion twice with the same arguments
leaves exactly the state of applying it once, for every starting state. -/
theorem runULV_idem {α : Type} (s : ReplicaState α) (oldV newV : Nat) :
    runULV (runULV s oldV newV) oldV newV = runULV s oldV newV := by
  simp only [runULV]
  by_cases h1 : newV < oldV
  · have hf : ∀ t : ReplicaState α, updateLatestVersion t oldV newV = none := by
      intro t
      unfold updateLatestVersion
      rw [if_pos h1]
    rw [hf s, Option.getD_none, hf s, Option.getD_none]
  · by_cases h2 : s.latestVisible = oldV
    · rw [updateLatestVersion_eq_some s oldV newV h1 h2, Option.getD_some]
      by_cases h3 : newV = oldV
      · rw [updateLatestVersion_eq_some _ oldV newV h1 h3, Option.getD_some]
        simp [List.filter_filter, Bool.and_self]
      · rw [updateLatestVersion_eq_none_of_ne _ oldV newV h1 h3,
            Option.getD_none]
    · rw [updateLatestVersion_eq_none_of_ne s oldV newV h1 h2,
          Option.getD_none,
          updateLatestVersion_eq_none_of_ne s oldV newV h1 h2,
          Option.getD_none]

/-- C3: with newVersion ≥ oldVersion, UpdateLatestVersion succeeds if and
only if the visible version equals oldVersion; on success it sets the
visible version to newVersion and deletes every committed version strictly
below newVersion; equal old and new versions are a successful no-op; an
oldVersion mismatch fails with no state change; running it twice with the
same arguments leaves the state of running it once; and when the committed
versions are all at most newVersion with newVersion present exactly once, a
single successful call leaves exactly one committed payload. -/
theorem updateLatestVersion_spec {α : Type} (s : ReplicaState α)
    (oldV newV : Nat) (hle : oldV ≤ newV) :
    ((updateLatestVersion s oldV newV).isSome ↔ s.latestVisible = oldV) ∧
    (s.latestVisible = oldV →
      updateLatestVersion s oldV newV
        = some { committed := s.committed.filter (fun p => decide (newV ≤ p.1)),
                 latestVisible := newV }) ∧
    (s.latestVisible ≠ oldV → updateLatestVersion s oldV newV = none) ∧
    (runULV (runULV s oldV newV) oldV newV = runULV s oldV newV) ∧
    (oldV = newV → s.latestVisible = oldV →
      (∀ p ∈ s.committed, newV ≤ p.1) →
      updateLatestVersion s oldV newV = some s) ∧
    ((∀ p ∈ s.committed, p.1 ≤ newV) →
      (s.committed.map Prod.fst).count newV = 1 →
      s.latestVisible = oldV →
      (runULV s oldV newV).committed.length = 1) := by
  have hnlt : ¬ newV < oldV := Nat.not_lt.mpr hle
  have hsucc : s.latestVisible = oldV →
      updateLatestVersion s oldV newV
        = some { committed := s.committed.filter (fun p => decide (newV ≤ p.1)),
                 latestVisible := newV } :=
    fun hv => updateLatestVersion_eq_some s oldV newV hnlt hv
  have hfail : s.latestVisible ≠ oldV →
      updateLatestVersion s oldV newV = none :=
    fun hv => updateLatestVersion_eq_none_of_ne s oldV newV hnlt hv
  refine ⟨?_, hsucc, hfail, ?_, ?_, ?_⟩
  · by_cases hv : s.latestVisible = oldV
    · rw [hsucc hv]
      simp [hv]
    · rw [hfail hv]
      simp [hv]
  · exact runULV_idem s oldV newV
  · intro heq hv hall
    rw [hsucc hv]
    have hfe : s.committed.filter (fun p => decide (newV ≤ p.1))
        = s.committed :=
      List.filter_eq_self.mpr (fun p hp => by simpa using hall p hp)
    rw [hfe]
    have hlv : newV = s.latestVisible := (hv.trans heq).symm
    rw [hlv]
  · intro hall hcount hv
    rw [runULV, hsucc hv, Option.getD_some]
    exact (filter_length_eq_count s.committed newV hall).trans hcount

/-- C3 witness: the sample replica (committed versions 1, 2, 3, version 1
visible) after UpdateLatestVersion(1, 3) holds exactly one committed
payload. -/
theorem updateLatestVersion_spec_witness :
    1 ≤ 3 ∧ (runULV sampleReplica 1 3).committed.length = 1 :=
  ⟨by decide,
   (updateLatestVersion_spec sampleReplica 1 3 (by decide)).2.2.2.2.2
     (by decide) (by decide) rfl⟩

/-! ## Claim theorems: client New protocol -/

/-- C6: a successful New() (owning cache, freshly allocated entry) issues
one Add per chosen replica, each with initial version 1 and zero-filled
data, and its final UpdateEntry succeeds, publishing the entry with
MostRecentVersion = LastConsumedVersion = 1 and the chosen replicas before
New returns. -/
theorem clientNew_publishes (s : CacheState) (c : Nat) (rs : List Nat)
    (howns : s.ownsChunk c = true)
    (hfresh : s.entries c
      = some { mostRecentVersion := 0, lastConsumedVersion := 0,
               replicas := [] }) :
    (∀ call ∈ (clientNewProtocol s c rs).1,
        call.initialVersion = 1 ∧ call.initialData = zeroData) ∧
    (clientNewProtocol s c rs).1.map AddCall.replica = rs ∧
    (clientNewProtocol s c rs).2.1 = "" ∧
    (clientNewProtocol s c rs).2.2.1 = none ∧
    (clientNewProtocol s c rs).2.2.2.entries c
      = some { mostRecentVersion := 1, lastConsumedVersion := 1,
               replicas := rs } := by
  have hupd : updateEntry s c
      { mostRecentVersion := 0, lastConsumedVersion := 0, replicas := [] }
      { mostRecentVersion := 1, lastConsumedVersion := 1, replicas := rs }
      = ("", none,
        { s with entries := fun c2 =>
            if c2 = c then
              some { mostRecentVersion := 1, lastConsumedVersion := 1,
                     replicas := rs }
            else s.entries c2 }) := by
    simp only [updateEntry]
    rw [if_neg (by simp [howns]),
        if_neg (by rw [hfresh]; simp),
        if_neg (by rw [hfresh]; simp),
        if_neg (by simp [validNext])]
  refine ⟨?_, ?_, ?_, ?_, ?_⟩
  · intro call hc
    simp only [clientNewProtocol, List.mem_map] at hc
    obtain ⟨r, hr, hcall⟩ := hc
    rw [← hcall]
    exact ⟨rfl, rfl⟩
  · have hcomp : (AddCall.replica ∘ fun r =>
        ({ replica := r, initialData := zeroData,
           initialVersion := 1 } : AddCall)) = fun r => r := rfl
    simp [clientNewProtocol, List.map_map, hcomp]
  · simp [clientNewProtocol, hupd]
  · simp [clientNewProtocol, hupd]
  · simp [clientNewProtocol, hupd]

/-- C6 witness: on the sample cache, New for chunk 1 with replicas 1, 2, 3
publishes the entry with both versions equal to 1 and those replicas. -/
theorem clientNew_publishes_witness :
    sampleCache.ownsChunk 1 = true ∧
    (clientNewProtocol sampleCache 1 [1, 2, 3]).2.2.2.entries 1
      = some { mostRecentVersion := 1, lastConsumedVersion := 1,
               replicas := [1, 2, 3] } :=
  ⟨rfl, (clientNew_publishes sampleCache 1 [1, 2, 3] rfl rfl).2.2.2.2⟩

/-! ## Claim theorems: twirp RPC proxy layer -/

/-- C8: across the server adapter, transport, and client proxy, an empty
serialized owner means "the responding cache is the owner": a successful
UpdateEntry, DeleteEntry, or ReadEntry round-trips as owner "" with no
error (ReadEntry also preserving the entry); a non-empty owner means
redirection, the reply carrying the owner name together with the error
text, and the client proxy reconstructs exactly that (owner, error) pair. -/
theorem owner_field_protocol (e : MetadataEntry) (owner msg : String)
    (howner : owner ≠ "") :
    (roundTripUpdateEntry ("", none) = some ("", none) ∧
     roundTripDeleteEntry ("", none) = some ("", none) ∧
     roundTripReadEntry (e, "", none) = some (e, "", none)) ∧
    (roundTripUpdateEntry (owner, some msg) = some (owner, some msg) ∧
     roundTripDeleteEntry (owner, some msg) = some (owner, some msg) ∧
     roundTripReadEntry (zeroEntry, owner, some msg)
       = some (zeroEntry, owner, some msg)) := by
  refine ⟨⟨rfl, rfl, rfl⟩, ?_, ?_, ?_⟩
  · have hs : proxyMetadataCacheAsTwirp.UpdateEntry (owner, some msg)
        = some (some { owner := owner, ownerErr := msg }, none) := by
      simp only [proxyMetadataCacheAsTwirp.UpdateEntry]
      rw [if_pos howner]
    simp only [roundTripUpdateEntry, hs, twirpTransport,
      proxyTwirpAsMetadataCache.UpdateEntry]
    rw [if_pos howner]
  · have hs : proxyMetadataCacheAsTwirp.DeleteEntry (owner, some msg)
        = some (some { owner := owner, ownerErr := msg }, none) := by
      simp only [proxyMetadataCacheAsTwirp.DeleteEntry]
      rw [if_pos howner]
    simp only [roundTripDeleteEntry, hs, twirpTransport,
      proxyTwirpAsMetadataCache.DeleteEntry]
    rw [if_pos howner]
  · have hs : proxyMetadataCacheAsTwirp.ReadEntry (zeroEntry, owner, some msg)
        = (some { entry := none, owner := owner, ownerErr := msg }, none) := by
      simp only [proxyMetadataCacheAsTwirp.ReadEntry]
      rw [if_neg howner]
    simp only [roundTripReadEntry, hs, twirpTransport,
      proxyTwirpAsMetadataCache.ReadEntry]
    rw [if_pos howner]

/-- C8 witness: a redirection with owner "mdc1" and error text "not owner"
round-trips UpdateEntry exactly. -/
theorem owner_field_protocol_witness :
    ("mdc1" : String) ≠ "" ∧
    roundTripUpdateEntry ("mdc1", some "not owner")
      = some ("mdc1", some "not owner") :=
  ⟨by decide,
   (owner_field_protocol zeroEntry "mdc1" "not owner" (by decide)).2.1⟩

/-- C9: when the underlying twirp RPC yields a non-nil error (and hence a
nil result message), the client-side UpdateEntry and DeleteEntry proxies
dereference the nil result before ever checking the error — a panic,
modelled as `none` — whereas the ReadEntry proxy returns the transport
error (with the zero entry and no owner) without touching the result. -/
theorem proxy_update_delete_unguarded (msg : String) :
    proxyTwirpAsMetadataCache.UpdateEntry (none, some msg) = none ∧
    proxyTwirpAsMetadataCache.DeleteEntry (none, some msg) = none ∧
    proxyTwirpAsMetadataCache.ReadEntry (none, some msg)
      = some (zeroEntry, "", some msg) :=
  ⟨rfl, rfl, rfl⟩

/-- C10: for any implementation result of ReadEntry obeying the
MetadataCache contract (a redirection owner comes with an error, and any
error comes with the zero entry), composing the server-side twirp adapter,
the transport, and the client-side proxy returns exactly the same entry,
owner, and error (errors compared by message text) as the direct call. -/
theorem readEntry_roundtrip (e : MetadataEntry) (owner : String)
    (err : Option String) (h1 : owner ≠ "" → err ≠ none)
    (h2 : err ≠ none → e = zeroEntry) :
    roundTripReadEntry (e, owner, err) = some (e, owner, err) := by
  cases err with
  | none =>
    have ho : owner = "" := by
      by_contra hc
      exact h1 hc rfl
    subst ho
    rfl
  | some msg =>
    have he : e = zeroEntry := h2 (by simp)
    subst he
    by_cases ho : owner = ""
    · subst ho
      rfl
    · simp only [roundTripReadEntry, proxyMetadataCacheAsTwirp.ReadEntry]
      rw [if_neg ho]
      simp only [twirpTransport, proxyTwirpAsMetadataCache.ReadEntry]
      rw [if_pos ho]

/-- C10 witness: a redirection result (zero entry, owner "mdc2", error text)
survives the ReadEntry round trip unchanged. -/
theorem readEntry_roundtrip_witness :
    (("mdc2" : String) ≠ "" → (some "not the owner" : Option String) ≠ none) ∧
    roundTripReadEntry (zeroEntry, "mdc2", some "not the owner")
      = some (zeroEntry, "mdc2", some "not the owner") :=
  ⟨fun _ => by decide,
   readEntry_roundtrip zeroEntry "mdc2" (some "not the owner")
     (fun _ => by decide) (fun _ => rfl)⟩

end Zircon
